import Mathlib

/-!
Verification of the subtensor network-lifecycle pallet (`networks.rs`) and the
delegate read-model (`delegate_info.rs`) against their natural-language
specification.

Machine integers are modelled as `Nat` with explicit wrapping (`% 2^64`,
`% 2^16`) exactly where the Rust release-mode semantics wraps.  Storage maps
are modelled as functions into `Option` so that key presence/absence is
observable (substrate `remove` versus `insert`).
-/

/-- Size of the u64 value space. -/
def pow64 : Nat := 2 ^ 64

/-- Size of the u16 value space. -/
def pow16 : Nat := 2 ^ 16

/-- Wrapping u64 subtraction (Rust release-mode `-` on `u64`), for operands
below `2^64`. -/
def wsub (a b : Nat) : Nat := (a + pow64 - b % pow64) % pow64

/-- Wrapping u64 multiplication (Rust release-mode `*` on `u64`). -/
def wmul (a b : Nat) : Nat := (a * b) % pow64

/-- Wrapping u16 subtraction, for the `TotalNetworks` counter. -/
def wsub16 (a b : Nat) : Nat := (a + pow16 - b % pow16) % pow16

/-- Pointwise update of a function-modelled storage map. -/
def fupd {α : Type} (m : Nat → α) (k : Nat) (v : α) : Nat → α :=
  fun i => if i = k then v else m i

theorem wsub_eq_sub {a b : Nat} (hba : b ≤ a) (ha : a < pow64) :
    wsub a b = a - b := by
  have hb : b < pow64 := Nat.lt_of_le_of_lt hba ha
  unfold wsub pow64 at *
  omega

theorem wsub_eq_sub16 {a b : Nat} (hba : b ≤ a) (ha : a < pow16) :
    wsub16 a b = a - b := by
  have hb : b < pow16 := Nat.lt_of_le_of_lt hba ha
  unfold wsub16 pow16 at *
  omega

theorem wmul_eq_mul {a b : Nat} (h : a * b < pow64) : wmul a b = a * b := by
  unfold wmul
  exact Nat.mod_eq_of_lt h

/-! ## BurnPricingEngine (`get_network_burn_cost`, networks.rs lines 686-701)

The source reads four process-wide u64 values and computes
`(last_burn * mult) - (last_burn / (8 * DAYS)) * (current_block - last_burn_block)`
with plain (non-saturating) u64 arithmetic, then floors the result at
`min_burn`.  The four reads are modelled as the four arguments. -/

/-- Number of blocks in a day (`const DAYS: u64 = 7200`). -/
def DAYS : Nat := 7200

/-- Shallow embedding of `Pallet::get_network_burn_cost`.  The multiplier is 1
when no prior registration has occurred (`last_burn_block == 0`), else 2; the
subtraction and multiplications are wrapping u64 operations, as in the Rust
release build. -/
def get_network_burn_cost (last_burn min_burn last_burn_block current_block : Nat) : Nat :=
  let mult : Nat := if last_burn_block = 0 then 1 else 2
  let burn_cost : Nat :=
    wsub (wmul last_burn mult)
      (wmul (last_burn / (8 * DAYS)) (wsub current_block last_burn_block))
  if burn_cost < min_burn then min_burn else burn_cost

/-- C2 counterexample: with `lastBurn = 57600`, `minBurn = 100`,
`lastBurnBlock = 1` and no new registration, advancing `currentBlock` from
115201 to 115202 makes the returned cost jump from 100 to `2^64 - 1`: the
decay term underflows the stepped-up burn and the wrapped difference is huge,
so the cost is not monotonically non-increasing in `currentBlock`. -/
theorem burn_cost_monotonicity_counterexample :
    ¬ get_network_burn_cost 57600 100 1 115202 ≤
        get_network_burn_cost 57600 100 1 115201 := by
  decide

/-- C2 (amended): the returned cost never falls below `minBurn` — this holds
unconditionally, for every combination of the four inputs, wrap or no wrap,
because the `min_burn` comparison is the last step — and it is monotonically
non-increasing as `currentBlock` advances with no new registration provided
the u64 arithmetic does not wrap: the stepped-up burn fits in a u64 and the
linear decay term at the later block does not exceed the stepped-up burn. -/
theorem burn_cost_floor_and_monotone
    (last_burn min_burn last_burn_block b1 b2 : Nat) :
    min_burn ≤ get_network_burn_cost last_burn min_burn last_burn_block b1 ∧
      min_burn ≤ get_network_burn_cost last_burn min_burn last_burn_block b2 ∧
      (last_burn_block ≤ b1 → b1 ≤ b2 → b2 < pow64 →
        last_burn * (if last_burn_block = 0 then 1 else 2) < pow64 →
        last_burn / (8 * DAYS) * (b2 - last_burn_block) ≤
          last_burn * (if last_burn_block = 0 then 1 else 2) →
        get_network_burn_cost last_burn min_burn last_burn_block b2 ≤
          get_network_burn_cost last_burn min_burn last_burn_block b1) := by
  have hfloor : ∀ b, min_burn ≤ get_network_burn_cost last_burn min_burn last_burn_block b := by
    intro b
    simp only [get_network_burn_cost]
    split <;> split <;> omega
  refine ⟨hfloor b1, hfloor b2, ?_⟩
  intro hlb hb hb2 hs hd
  unfold get_network_burn_cost
  set mult : Nat := if last_burn_block = 0 then 1 else 2 with hmult
  have hb1 : b1 < pow64 := Nat.lt_of_le_of_lt hb hb2
  have hq1 : last_burn / (8 * DAYS) * (b1 - last_burn_block) ≤
      last_burn / (8 * DAYS) * (b2 - last_burn_block) :=
    Nat.mul_le_mul_left _ (by omega)
  have hsm : wmul last_burn mult = last_burn * mult := wmul_eq_mul hs
  have he1 : wsub b1 last_burn_block = b1 - last_burn_block := wsub_eq_sub hlb hb1
  have he2 : wsub b2 last_burn_block = b2 - last_burn_block :=
    wsub_eq_sub (Nat.le_trans hlb hb) hb2
  have hm1 : wmul (last_burn / (8 * DAYS)) (b1 - last_burn_block) =
      last_burn / (8 * DAYS) * (b1 - last_burn_block) :=
    wmul_eq_mul (Nat.lt_of_le_of_lt (Nat.le_trans hq1 hd) hs)
  have hm2 : wmul (last_burn / (8 * DAYS)) (b2 - last_burn_block) =
      last_burn / (8 * DAYS) * (b2 - last_burn_block) :=
    wmul_eq_mul (Nat.lt_of_le_of_lt hd hs)
  have ho1 : wsub (last_burn * mult) (last_burn / (8 * DAYS) * (b1 - last_burn_block)) =
      last_burn * mult - last_burn / (8 * DAYS) * (b1 - last_burn_block) :=
    wsub_eq_sub (Nat.le_trans hq1 hd) hs
  have ho2 : wsub (last_burn * mult) (last_burn / (8 * DAYS) * (b2 - last_burn_block)) =
      last_burn * mult - last_burn / (8 * DAYS) * (b2 - last_burn_block) :=
    wsub_eq_sub hd hs
  simp only [he1, he2, hsm, hm1, hm2, ho1, ho2]
  split <;> split <;> omega

/-- C2 witness: a concrete instance — the floor at the wrapping input of the
counterexample (block 115202, where the cost is `2^64 - 1 ≥ 100`) and at
block 115201, and monotonicity on the no-wrap pair of blocks 10 and 20
(lastBurn 57600, minBurn 100, lastBurnBlock 1). -/
theorem burn_cost_floor_and_monotone_witness :
    100 ≤ get_network_burn_cost 57600 100 1 115201 ∧
      100 ≤ get_network_burn_cost 57600 100 1 115202 ∧
      get_network_burn_cost 57600 100 1 20 ≤ get_network_burn_cost 57600 100 1 10 := by
  obtain ⟨h1, h2, _⟩ := burn_cost_floor_and_monotone 57600 100 1 115201 115202
  obtain ⟨_, _, h3⟩ := burn_cost_floor_and_monotone 57600 100 1 10 20
  exact ⟨h1, h2, h3 (by decide) (by decide) (by decide) (by decide) (by decide)⟩

/-- C3 (code bug): at `lastBurn = 57600`, `minBurn = 100`, `lastBurnBlock = 1`,
`currentBlock = 115202` the decay term (115201) exceeds the stepped-up burn
(115200) and the plain u64 subtraction wraps to `2^64 - 1` instead of being
clamped to `minBurn`: the code does not use saturating/checked arithmetic, so
the result is the wrapped value rather than the documented `minBurn` floor
(in a debug build the same subtraction panics). -/
theorem burn_cost_underflow_wraps :
    get_network_burn_cost 57600 100 1 115202 = pow64 - 1 := by
  decide

/-! ## PruningSelector (`get_subnet_to_prune`, networks.rs lines 711-758)

The source scans `0..TotalNetworks`, keeping four mutable trackers initialised
to `(min_score, min_score_in_immunity_period, uid_with_min_score,
uid_with_min_score_in_immunity_period) = (1, u64::MAX, 1, 1)`.  The per-network
reads (`get_emission_value`, `get_network_registered_block`,
`get_current_block_as_u64`, `get_network_immunity_period`) are modelled as the
fields of `PruneView`; `current_block - block_at_registration` is the wrapping
u64 subtraction of the source. -/

/-- View of the storage read by `get_subnet_to_prune`: per-netuid emission
value and registration block (ValueQuery, default 0), the current block, the
network immunity period, and the `TotalNetworks` counter. -/
structure PruneView where
  emissionValue : Nat → Nat
  registeredAt : Nat → Nat
  currentBlock : Nat
  immunityPeriod : Nat
  totalNetworks : Nat

/-- Running trackers of the pruning loop, named after the four mutable
variables of the source. -/
structure PruneAcc where
  min_score : Nat
  min_score_in_immunity_period : Nat
  uid_with_min_score : Nat
  uid_with_min_score_in_immunity_period : Nat
  deriving DecidableEq

/-- One iteration of the pruning loop body, exactly as in the source: an
equality branch, a strict-greater branch (each splitting on the immunity test),
and an implicit no-op otherwise. -/
def pruneStep (st : PruneView) (acc : PruneAcc) (netuid : Nat) : PruneAcc :=
  let emission_value := st.emissionValue netuid
  if acc.min_score = emission_value then
    if wsub st.currentBlock (st.registeredAt netuid) < st.immunityPeriod then
      if acc.min_score_in_immunity_period > emission_value then
        { acc with
          min_score_in_immunity_period := emission_value
          uid_with_min_score_in_immunity_period := netuid }
      else acc
    else
      { acc with min_score := emission_value, uid_with_min_score := netuid }
  else if acc.min_score > emission_value then
    if wsub st.currentBlock (st.registeredAt netuid) < st.immunityPeriod then
      if acc.min_score_in_immunity_period > emission_value then
        { acc with
          min_score_in_immunity_period := emission_value
          uid_with_min_score_in_immunity_period := netuid }
      else acc
    else
      { acc with min_score := emission_value, uid_with_min_score := netuid }
  else acc

/-- Initial tracker values of the source: sentinel score 1, `u64::MAX`
immunity score, sentinel uids 1. -/
def pruneInit : PruneAcc := ⟨1, pow64 - 1, 1, 1⟩

/-- Shallow embedding of `Pallet::get_subnet_to_prune`. -/
def get_subnet_to_prune (st : PruneView) : Nat :=
  let r := (List.range st.totalNetworks).foldl (pruneStep st) pruneInit
  if r.min_score = 1 then r.uid_with_min_score_in_immunity_period
  else r.uid_with_min_score

/-- A subnetwork id that is non-immune and has emission 0: the only ids the
non-immune minimum tracker can settle on, since the running `min_score`
starts at the sentinel 1 and only ever decreases. -/
def isCandidateZero (st : PruneView) (i : Nat) : Bool :=
  decide (st.emissionValue i = 0) &&
    !decide (wsub st.currentBlock (st.registeredAt i) < st.immunityPeriod)

/-- State refuting C1: two live subnetworks, netuid 0 non-immune with
emission 1 and netuid 1 immune (registered at block 95, current block 100,
immunity period 10) with emission 0. -/
def exC1 : PruneView where
  emissionValue := fun i => if i = 0 then 1 else 0
  registeredAt := fun i => if i = 0 then 0 else 95
  currentBlock := 100
  immunityPeriod := 10
  totalNetworks := 2

/-- C1 counterexample: in `exC1` subnetwork 0 is non-immune (so a non-immune
candidate exists) yet `get_subnet_to_prune` returns the immune subnetwork 1:
the non-immune minimum emission is exactly the sentinel 1, so the final
`min_score == 1` test wrongly concludes that every network is immune and
returns the immune tracker. -/
theorem prune_prefers_immune_counterexample :
    get_subnet_to_prune exC1 = 1 ∧
      ¬ wsub exC1.currentBlock (exC1.registeredAt 0) < exC1.immunityPeriod ∧
      wsub exC1.currentBlock (exC1.registeredAt 1) < exC1.immunityPeriod ∧
      exC1.totalNetworks = 2 := by
  decide

/-- C10: with no live subnetworks, or whenever every live subnetwork's
emission exceeds the sentinel score 1 (so the loop never updates any
tracker), `get_subnet_to_prune` returns the numeric sentinel uid 1 rather
than any absent/none indication. -/
theorem prune_sentinel_one (st : PruneView)
    (h : st.totalNetworks = 0 ∨ ∀ i, i < st.totalNetworks → 1 < st.emissionValue i) :
    get_subnet_to_prune st = 1 := by
  have key : ∀ n, (n = 0 ∨ ∀ i, i < n → 1 < st.emissionValue i) →
      (List.range n).foldl (pruneStep st) pruneInit = pruneInit := by
    intro n
    induction n with
    | zero => intro _; simp
    | succ m ih =>
      intro hn
      rcases hn with hz | hall
      · omega
      · rw [List.range_succ, List.foldl_append, List.foldl_cons, List.foldl_nil,
          ih (Or.inr (fun i hi => hall i (by omega)))]
        have hm : 1 < st.emissionValue m := hall m (by omega)
        unfold pruneStep pruneInit
        simp only
        rw [if_neg (by omega), if_neg (by omega)]
  unfold get_subnet_to_prune
  rw [key st.totalNetworks h]
  rfl

/-- C10 witness: the empty state (zero live subnetworks) yields the
sentinel uid 1. -/
theorem prune_sentinel_one_witness :
    get_subnet_to_prune ⟨fun _ => 0, fun _ => 0, 0, 0, 0⟩ = 1 :=
  prune_sentinel_one ⟨fun _ => 0, fun _ => 0, 0, 0, 0⟩ (Or.inl rfl)

theorem pruneStep_nonimmune (st : PruneView) (A : PruneAcc) (m : Nat)
    (hle : st.emissionValue m ≤ A.min_score)
    (him : ¬ wsub st.currentBlock (st.registeredAt m) < st.immunityPeriod) :
    pruneStep st A m =
      { A with min_score := st.emissionValue m, uid_with_min_score := m } := by
  unfold pruneStep
  by_cases he : A.min_score = st.emissionValue m
  · rw [if_pos he, if_neg him]
  · rw [if_neg he, if_pos (by omega), if_neg him]

theorem pruneStep_preserve_zero (st : PruneView) (A : PruneAcc) (m : Nat)
    (h : st.emissionValue m = 0 → wsub st.currentBlock (st.registeredAt m) < st.immunityPeriod)
    (hms : A.min_score = 0) :
    (pruneStep st A m).min_score = 0 ∧
      (pruneStep st A m).uid_with_min_score = A.uid_with_min_score := by
  unfold pruneStep
  by_cases he : A.min_score = st.emissionValue m
  · rw [if_pos he, if_pos (h (by omega))]
    split <;> simp [hms]
  · rw [if_neg he, if_neg (by omega)]
    simp [hms]

theorem pruneStep_stay_one (st : PruneView) (A : PruneAcc) (m : Nat)
    (h : st.emissionValue m = 0 → wsub st.currentBlock (st.registeredAt m) < st.immunityPeriod)
    (hms : A.min_score = 1) :
    (pruneStep st A m).min_score = 1 := by
  unfold pruneStep
  by_cases he : A.min_score = st.emissionValue m
  · rw [if_pos he]
    split
    · split <;> simp [hms]
    · simp [← he, hms]
  · rw [if_neg he]
    by_cases hgt : A.min_score > st.emissionValue m
    · rw [if_pos hgt, if_pos (h (by omega))]
      split <;> simp [hms]
    · rw [if_neg hgt]
      exact hms

/-- Loop invariant of `get_subnet_to_prune`: after scanning `0..n`, either no
non-immune emission-0 subnetwork has been seen and the running `min_score` is
still the sentinel 1, or the running minimum is 0 and `uid_with_min_score` is
the last-seen non-immune emission-0 subnetwork. -/
theorem prune_loop_inv (st : PruneView) (n : Nat) :
    ((List.range n).filter (isCandidateZero st) = [] ∧
        ((List.range n).foldl (pruneStep st) pruneInit).min_score = 1) ∨
      (((List.range n).filter (isCandidateZero st)).getLast? =
          some (((List.range n).foldl (pruneStep st) pruneInit).uid_with_min_score) ∧
        ((List.range n).foldl (pruneStep st) pruneInit).min_score = 0) := by
  induction n with
  | zero => left; exact ⟨rfl, rfl⟩
  | succ m ih =>
    rw [List.range_succ, List.filter_append, List.foldl_append, List.foldl_cons,
      List.foldl_nil]
    by_cases hc : isCandidateZero st m
    · have he0 : st.emissionValue m = 0 := by
        have := hc
        unfold isCandidateZero at this
        simp only [Bool.and_eq_true, decide_eq_true_eq, Bool.not_eq_true',
          decide_eq_false_iff_not] at this
        exact this.1
      have him : ¬ wsub st.currentBlock (st.registeredAt m) < st.immunityPeriod := by
        have := hc
        unfold isCandidateZero at this
        simp only [Bool.and_eq_true, decide_eq_true_eq, Bool.not_eq_true',
          decide_eq_false_iff_not] at this
        exact this.2
      right
      have hstep : pruneStep st ((List.range m).foldl (pruneStep st) pruneInit) m =
          { (List.range m).foldl (pruneStep st) pruneInit with
            min_score := st.emissionValue m, uid_with_min_score := m } := by
        rcases ih with ⟨_, hms⟩ | ⟨_, hms⟩ <;>
          exact pruneStep_nonimmune st _ m (by omega) him
      rw [hstep]
      constructor
      · simp only [List.filter_cons, List.filter_nil, hc, if_pos]
        exact List.getLast?_concat _
      · exact he0
    · have hni : st.emissionValue m = 0 →
          wsub st.currentBlock (st.registeredAt m) < st.immunityPeriod := by
        intro he0
        by_contra him
        apply hc
        unfold isCandidateZero
        simp only [Bool.and_eq_true, decide_eq_true_eq, Bool.not_eq_true',
          decide_eq_false_iff_not]
        exact ⟨he0, him⟩
      have hfe : (List.filter (isCandidateZero st) [m]) = [] := by
        simp [List.filter_cons, hc]
      rw [hfe, List.append_nil]
      rcases ih with ⟨hf, hms⟩ | ⟨hl, hms⟩
      · left
        exact ⟨hf, pruneStep_stay_one st _ m hni hms⟩
      · right
        rcases pruneStep_preserve_zero st _ m hni hms with ⟨h0, hu⟩
        exact ⟨by rw [hu]; exact hl, h0⟩

/-- C1 (amended): whenever at least one non-immune subnetwork with emission 0
exists, `get_subnet_to_prune` returns the last-seen (highest-id) non-immune
subnetwork with emission 0 — a non-immune subnetwork of minimal emission, but
with ties broken toward the highest id, not the lowest.  (When the minimum
non-immune emission is nonzero the selector can instead return an immune
subnetwork or the sentinel uid 1, as the counterexample shows.) -/
theorem prune_returns_last_nonimmune_zero (st : PruneView)
    (h : (List.range st.totalNetworks).filter (isCandidateZero st) ≠ []) :
    ((List.range st.totalNetworks).filter (isCandidateZero st)).getLast? =
      some (get_subnet_to_prune st) := by
  rcases prune_loop_inv st st.totalNetworks with ⟨hf, _⟩ | ⟨hl, hms⟩
  · exact absurd hf h
  · unfold get_subnet_to_prune
    simp only [hms]
    rw [if_neg (by omega)]
    exact hl

/-- Example state for the C1 witness: three subnetworks with emission 0, of
which 0 and 2 are non-immune and 1 is immune (registered at block 99 with
current block 100 and immunity period 10). -/
def exA : PruneView where
  emissionValue := fun _ => 0
  registeredAt := fun i => if i = 1 then 99 else 0
  currentBlock := 100
  immunityPeriod := 10
  totalNetworks := 3

/-- C1 witness: in `exA` the non-immune emission-0 subnetworks are 0 and 2 and
the selector returns the last-seen one, 2. -/
theorem prune_returns_last_nonimmune_zero_witness :
    ((List.range exA.totalNetworks).filter (isCandidateZero exA)).getLast? =
      some (get_subnet_to_prune exA) :=
  prune_returns_last_nonimmune_zero exA (by decide)

/-! ## NetworkRegistry (`networks.rs`): state, creation, removal, batch emission

Accounts are modelled as `Nat`.  Every substrate storage map touched by
`init_new_network`, `remove_network`, `erase_all_network_data`,
`set_default_values_for_all_parameters` and `do_set_emission_values` is a
field of `NetState`, as `Nat → Option _` so that the presence of a key is
observable.  `balOk` models the external `u64_to_balance` conversion guard
(`Some`/`None`), `balances` the external account-balance ledger, and
`blockEmission` the external `get_block_emission` oracle. -/

/-- Per-map storage default values (the configured `DefaultTempo`,
`DefaultKappa`, ... constants, which live outside `src/`). -/
structure Defaults where
  tempo : Nat
  kappa : Nat
  difficulty : Nat
  maxAllowedUids : Nat
  immunityPeriod : Nat
  activityCutoff : Nat
  emissionValues : Nat
  maxWeightsLimit : Nat
  minAllowedWeights : Nat
  registrationsThisInterval : Nat
  powRegistrationsThisInterval : Nat
  burnRegistrationsThisInterval : Nat

/-- Ledger state visible to the network-lifecycle operations. -/
structure NetState where
  networksAdded : Nat → Option Bool
  subnetworkN : Nat → Option Nat
  tempo : Nat → Option Nat
  networkModality : Nat → Option Nat
  totalNetworks : Nat
  kappa : Nat → Option Nat
  difficulty : Nat → Option Nat
  maxAllowedUids : Nat → Option Nat
  immunityPeriod : Nat → Option Nat
  activityCutoff : Nat → Option Nat
  emissionValues : Nat → Option Nat
  maxWeightsLimit : Nat → Option Nat
  minAllowedWeights : Nat → Option Nat
  registrationsThisInterval : Nat → Option Nat
  powRegistrationsThisInterval : Nat → Option Nat
  burnRegistrationsThisInterval : Nat → Option Nat
  rank : Nat → Option (List Nat)
  trust : Nat → Option (List Nat)
  active : Nat → Option (List Bool)
  emission : Nat → Option (List Nat)
  incentive : Nat → Option (List Nat)
  consensus : Nat → Option (List Nat)
  dividends : Nat → Option (List Nat)
  pruningScores : Nat → Option (List Nat)
  lastUpdate : Nat → Option (List Nat)
  validatorPermit : Nat → Option (List Bool)
  validatorTrust : Nat → Option (List Nat)
  uids : Nat → Nat → Option Nat
  keys : Nat → Nat → Option Nat
  bonds : Nat → Nat → Option (List (Nat × Nat))
  weights : Nat → Nat → Option (List (Nat × Nat))
  subnetOwner : Nat → Option Nat
  networkRegisteredAt : Nat → Option Nat
  subnetLocked : Nat → Option Nat
  balances : Nat → Nat
  balOk : Nat → Bool
  blockEmission : Nat
  dflt : Defaults

/-- Shallow embedding of `Pallet::if_subnet_exist` (`NetworksAdded` is a
ValueQuery map with default `false`). -/
def if_subnet_exist (st : NetState) (netuid : Nat) : Bool :=
  (st.networksAdded netuid).getD false

/-- One conditional default write of `set_default_values_for_all_parameters`:
`if !Map::contains_key(netuid) { Map::insert(netuid, Map::get(netuid)) }`,
where the `get` of an absent key yields the configured default. -/
def insertDefault (m : Nat → Option Nat) (netuid d : Nat) : Nat → Option Nat :=
  if (m netuid).isSome then m else fupd m netuid (some ((m netuid).getD d))

/-- Shallow embedding of `Pallet::set_default_values_for_all_parameters`. -/
def set_default_values_for_all_parameters (st : NetState) (netuid : Nat) : NetState :=
  { st with
    tempo := insertDefault st.tempo netuid st.dflt.tempo
    kappa := insertDefault st.kappa netuid st.dflt.kappa
    difficulty := insertDefault st.difficulty netuid st.dflt.difficulty
    maxAllowedUids := insertDefault st.maxAllowedUids netuid st.dflt.maxAllowedUids
    immunityPeriod := insertDefault st.immunityPeriod netuid st.dflt.immunityPeriod
    activityCutoff := insertDefault st.activityCutoff netuid st.dflt.activityCutoff
    emissionValues := insertDefault st.emissionValues netuid st.dflt.emissionValues
    maxWeightsLimit := insertDefault st.maxWeightsLimit netuid st.dflt.maxWeightsLimit
    minAllowedWeights := insertDefault st.minAllowedWeights netuid st.dflt.minAllowedWeights
    registrationsThisInterval :=
      insertDefault st.registrationsThisInterval netuid st.dflt.registrationsThisInterval
    powRegistrationsThisInterval :=
      insertDefault st.powRegistrationsThisInterval netuid st.dflt.powRegistrationsThisInterval
    burnRegistrationsThisInterval :=
      insertDefault st.burnRegistrationsThisInterval netuid st.dflt.burnRegistrationsThisInterval }

/-- Shallow embedding of `Pallet::init_new_network`: mark the netuid live with
zero neurons, store tempo and modality, bump `TotalNetworks` (a u16 `+= 1`,
hence the `% 2^16`), then write the parameter defaults explicitly. -/
def init_new_network (st : NetState) (netuid tempo modality : Nat) : NetState :=
  set_default_values_for_all_parameters
    { st with
      subnetworkN := fupd st.subnetworkN netuid (some 0)
      networksAdded := fupd st.networksAdded netuid (some true)
      tempo := fupd st.tempo netuid (some tempo)
      networkModality := fupd st.networkModality netuid (some modality)
      totalNetworks := (st.totalNetworks + 1) % pow16 }
    netuid

/-- Shallow embedding of `Pallet::erase_all_network_data`: clear the four
double maps by netuid prefix and remove every per-netuid table and scalar
hyperparameter. -/
def erase_all_network_data (st : NetState) (netuid : Nat) : NetState :=
  { st with
    uids := fun a b => if a = netuid then none else st.uids a b
    keys := fun a b => if a = netuid then none else st.keys a b
    bonds := fun a b => if a = netuid then none else st.bonds a b
    weights := fun a b => if a = netuid then none else st.weights a b
    rank := fupd st.rank netuid none
    trust := fupd st.trust netuid none
    active := fupd st.active netuid none
    emission := fupd st.emission netuid none
    incentive := fupd st.incentive netuid none
    consensus := fupd st.consensus netuid none
    dividends := fupd st.dividends netuid none
    pruningScores := fupd st.pruningScores netuid none
    lastUpdate := fupd st.lastUpdate netuid none
    validatorPermit := fupd st.validatorPermit netuid none
    validatorTrust := fupd st.validatorTrust netuid none
    tempo := fupd st.tempo netuid none
    kappa := fupd st.kappa netuid none
    difficulty := fupd st.difficulty netuid none
    maxAllowedUids := fupd st.maxAllowedUids netuid none
    immunityPeriod := fupd st.immunityPeriod netuid none
    activityCutoff := fupd st.activityCutoff netuid none
    emissionValues := fupd st.emissionValues netuid none
    maxWeightsLimit := fupd st.maxWeightsLimit netuid none
    minAllowedWeights := fupd st.minAllowedWeights netuid none
    registrationsThisInterval := fupd st.registrationsThisInterval netuid none
    powRegistrationsThisInterval := fupd st.powRegistrationsThisInterval netuid none
    burnRegistrationsThisInterval := fupd st.burnRegistrationsThisInterval netuid none }

/-- Shallow embedding of `Pallet::remove_network`.  The owner and the locked
balance are read first; if the external `u64_to_balance` conversion (modelled
by `balOk`) fails the whole removal silently returns.  Otherwise the
existence/modality/counter entries are removed, all network data erased, the
counter decremented (u16 `-= 1`), registration block, owner and lock cleared
(the lock is re-inserted as 0, as `set_subnet_locked_balance(netuid, 0)`
does), and the reserved amount credited back to the owner. -/
def remove_network (st : NetState) (netuid : Nat) : NetState :=
  let owner_coldkey := (st.subnetOwner netuid).getD 0
  let reserved_amount := (st.subnetLocked netuid).getD 0
  if st.balOk reserved_amount = false then st
  else
    let st1 := { st with
      subnetworkN := fupd st.subnetworkN netuid none
      networkModality := fupd st.networkModality netuid none
      networksAdded := fupd st.networksAdded netuid none }
    let st2 := erase_all_network_data st1 netuid
    let st3 := { st2 with
      totalNetworks := wsub16 st2.totalNetworks 1
      networkRegisteredAt := fupd st2.networkRegisteredAt netuid none
      subnetOwner := fupd st2.subnetOwner netuid none
      subnetLocked := fupd st2.subnetLocked netuid (some 0) }
    { st3 with
      balances :=
        fupd st3.balances owner_coldkey (st3.balances owner_coldkey + reserved_amount) }

/-- Error cases of `do_set_emission_values`, named after the pallet errors. -/
inductive SetEmissionError where
  | badOrigin
  | weightVecNotEqualSize
  | incorrectNetuidsLength
  | duplicateUids
  | invalidUid
  | invalidEmissionValues
  deriving DecidableEq

/-- Modelled from the spec: `crate::math::checked_sum` (not under `src/`) is
the overflow-checked u64 sum of the emission vector — `none` when the sum
overflows a u64, otherwise the sum. -/
def checked_sum : List Nat → Option Nat
  | [] => some 0
  | x :: rest =>
    match checked_sum rest with
    | none => none
    | some s => if x + s < pow64 then some (x + s) else none

/-- Inner loop of `has_duplicate_netuids`: walk the list, pushing each item
onto `parsed` and reporting a duplicate as soon as an item is already there. -/
def has_duplicate_netuids_go : List Nat → List Nat → Bool
  | _, [] => false
  | parsed, item :: rest =>
    if parsed.contains item then true
    else has_duplicate_netuids_go (parsed ++ [item]) rest

/-- Shallow embedding of `Pallet::has_duplicate_netuids`. -/
def has_duplicate_netuids (netuids : List Nat) : Bool :=
  has_duplicate_netuids_go [] netuids

/-- Shallow embedding of `Pallet::contains_invalid_netuids`: true when some
listed netuid does not exist. -/
def contains_invalid_netuids (st : NetState) : List Nat → Bool
  | [] => false
  | netuid :: rest =>
    if !(if_subnet_exist st netuid) then true else contains_invalid_netuids st rest

/-- Shallow embedding of `Pallet::set_emission_for_network`. -/
def set_emission_for_network (st : NetState) (netuid emission : Nat) : NetState :=
  { st with emissionValues := fupd st.emissionValues netuid (some emission) }

/-- Shallow embedding of `Pallet::set_emission_values`: write each
`(netuid, emission)` pair in order (the source indexes `emission[i]`; the two
lists have equal length at the call site, so the zip is the same traversal). -/
def set_emission_values (st : NetState) (netuids emission : List Nat) : NetState :=
  (netuids.zip emission).foldl (fun s p => set_emission_for_network s p.1 p.2) st

/-- Shallow embedding of `Pallet::do_set_emission_values`: the six `ensure!`
checks in source order, then the batch write.  An error reverts the extrinsic,
so the error branches carry no state. -/
def do_set_emission_values (isRoot : Bool) (st : NetState)
    (netuids emission : List Nat) : Except SetEmissionError NetState :=
  if isRoot = false then .error .badOrigin
  else if netuids.length ≠ emission.length then .error .weightVecNotEqualSize
  else if netuids.length ≠ st.totalNetworks then .error .incorrectNetuidsLength
  else if has_duplicate_netuids netuids then .error .duplicateUids
  else if contains_invalid_netuids st netuids then .error .invalidUid
  else
    match checked_sum emission with
    | none => .error .invalidEmissionValues
    | some s =>
      if s ≠ st.blockEmission then .error .invalidEmissionValues
      else .ok (set_emission_values st netuids emission)

theorem wsub16_succ_mod (t : Nat) (h : t < pow16) : wsub16 ((t + 1) % pow16) 1 = t := by
  unfold wsub16 pow16 at *
  omega

/-- C7: when the external balance conversion of the subnetwork's locked
balance fails, `remove_network` returns without any effect at all — the whole
state (existence flag, `TotalNetworks`, balances, every per-netuid table) is
exactly the one before the call; an atomic no-op, not an error. -/
theorem remove_network_noop_on_unrepresentable (st : NetState) (netuid : Nat)
    (h : st.balOk ((st.subnetLocked netuid).getD 0) = false) :
    remove_network st netuid = st := by
  unfold remove_network
  rw [if_pos h]

/-- C6: when the locked balance is representable, `remove_network` credits the
owner read from `SubnetOwner` with exactly the subnetwork's locked balance and
re-inserts the locked balance as 0. -/
theorem remove_network_refunds_owner (st : NetState) (netuid : Nat)
    (hlive : if_subnet_exist st netuid = true)
    (hok : st.balOk ((st.subnetLocked netuid).getD 0) = true) :
    (remove_network st netuid).balances ((st.subnetOwner netuid).getD 0) =
        st.balances ((st.subnetOwner netuid).getD 0) + (st.subnetLocked netuid).getD 0 ∧
      (remove_network st netuid).subnetLocked netuid = some 0 := by
  unfold remove_network
  rw [if_neg (by rw [hok]; simp)]
  simp [erase_all_network_data, fupd]

/-- C5: creating a not-currently-live subnetwork (valid modality and tempo)
and then removing it restores `TotalNetworks` to its prior value and leaves no
storage key scoped by that netuid: neuron count, existence flag, tempo,
modality, every scalar hyperparameter, every per-netuid score table, the
netuid prefix of every double map, the registration block and the owner.
The removal path assumes the external balance conversion succeeds (its failure
is C7's silent no-op). -/
theorem create_then_remove_restores (st : NetState) (netuid tempo modality : Nat)
    (hdead : if_subnet_exist st netuid = false)
    (hmod : modality < 3)
    (htempo : tempo < pow16 - 1)
    (htot : st.totalNetworks < pow16)
    (hok : st.balOk ((st.subnetLocked netuid).getD 0) = true) :
    (remove_network (init_new_network st netuid tempo modality) netuid).totalNetworks =
        st.totalNetworks ∧
      (remove_network (init_new_network st netuid tempo modality) netuid).networksAdded netuid
          = none ∧
      (remove_network (init_new_network st netuid tempo modality) netuid).subnetworkN netuid
          = none ∧
      (remove_network (init_new_network st netuid tempo modality) netuid).tempo netuid = none ∧
      (remove_network (init_new_network st netuid tempo modality) netuid).networkModality netuid
          = none ∧
      (remove_network (init_new_network st netuid tempo modality) netuid).kappa netuid = none ∧
      (remove_network (init_new_network st netuid tempo modality) netuid).difficulty netuid
          = none ∧
      (remove_network (init_new_network st netuid tempo modality) netuid).maxAllowedUids netuid
          = none ∧
      (remove_network (init_new_network st netuid tempo modality) netuid).immunityPeriod netuid
          = none ∧
      (remove_network (init_new_network st netuid tempo modality) netuid).activityCutoff netuid
          = none ∧
      (remove_network (init_new_network st netuid tempo modality) netuid).emissionValues netuid
          = none ∧
      (remove_network (init_new_network st netuid tempo modality) netuid).maxWeightsLimit netuid
          = none ∧
      (remove_network (init_new_network st netuid tempo modality) netuid).minAllowedWeights
          netuid = none ∧
      (remove_network (init_new_network st netuid tempo modality)
            netuid).registrationsThisInterval netuid = none ∧
      (remove_network (init_new_network st netuid tempo modality)
            netuid).powRegistrationsThisInterval netuid = none ∧
      (remove_network (init_new_network st netuid tempo modality)
            netuid).burnRegistrationsThisInterval netuid = none ∧
      (remove_network (init_new_network st netuid tempo modality) netuid).rank netuid = none ∧
      (remove_network (init_new_network st netuid tempo modality) netuid).trust netuid = none ∧
      (remove_network (init_new_network st netuid tempo modality) netuid).active netuid = none ∧
      (remove_network (init_new_network st netuid tempo modality) netuid).emission netuid
          = none ∧
      (remove_network (init_new_network st netuid tempo modality) netuid).incentive netuid
          = none ∧
      (remove_network (init_new_network st netuid tempo modality) netuid).consensus netuid
          = none ∧
      (remove_network (init_new_network st netuid tempo modality) netuid).dividends netuid
          = none ∧
      (remove_network (init_new_network st netuid tempo modality) netuid).pruningScores netuid
          = none ∧
      (remove_network (init_new_network st netuid tempo modality) netuid).lastUpdate netuid
          = none ∧
      (remove_network (init_new_network st netuid tempo modality) netuid).validatorPermit netuid
          = none ∧
      (remove_network (init_new_network st netuid tempo modality) netuid).validatorTrust netuid
          = none ∧
      (remove_network (init_new_network st netuid tempo modality) netuid).networkRegisteredAt
          netuid = none ∧
      (remove_network (init_new_network st netuid tempo modality) netuid).subnetOwner netuid
          = none ∧
      (∀ x, (remove_network (init_new_network st netuid tempo modality) netuid).uids netuid x
          = none) ∧
      (∀ x, (remove_network (init_new_network st netuid tempo modality) netuid).keys netuid x
          = none) ∧
      (∀ x, (remove_network (init_new_network st netuid tempo modality) netuid).bonds netuid x
          = none) ∧
      (∀ x, (remove_network (init_new_network st netuid tempo modality) netuid).weights netuid x
          = none) := by
  have hok' : (init_new_network st netuid tempo modality).balOk
      (((init_new_network st netuid tempo modality).subnetLocked netuid).getD 0) = true := by
    simpa [init_new_network, set_default_values_for_all_parameters] using hok
  unfold remove_network
  rw [if_neg (by rw [hok']; simp)]
  refine ⟨?_, ?_⟩
  · simp only [erase_all_network_data, init_new_network,
      set_default_values_for_all_parameters]
    exact wsub16_succ_mod st.totalNetworks htot
  · simp [erase_all_network_data, init_new_network,
      set_default_values_for_all_parameters, fupd]

/-- Empty ledger state used by the concrete witnesses: no keys, zero balances,
a conversion guard that always succeeds, and all defaults zero. -/
def exNet : NetState where
  networksAdded := fun _ => none
  subnetworkN := fun _ => none
  tempo := fun _ => none
  networkModality := fun _ => none
  totalNetworks := 0
  kappa := fun _ => none
  difficulty := fun _ => none
  maxAllowedUids := fun _ => none
  immunityPeriod := fun _ => none
  activityCutoff := fun _ => none
  emissionValues := fun _ => none
  maxWeightsLimit := fun _ => none
  minAllowedWeights := fun _ => none
  registrationsThisInterval := fun _ => none
  powRegistrationsThisInterval := fun _ => none
  burnRegistrationsThisInterval := fun _ => none
  rank := fun _ => none
  trust := fun _ => none
  active := fun _ => none
  emission := fun _ => none
  incentive := fun _ => none
  consensus := fun _ => none
  dividends := fun _ => none
  pruningScores := fun _ => none
  lastUpdate := fun _ => none
  validatorPermit := fun _ => none
  validatorTrust := fun _ => none
  uids := fun _ _ => none
  keys := fun _ _ => none
  bonds := fun _ _ => none
  weights := fun _ _ => none
  subnetOwner := fun _ => none
  networkRegisteredAt := fun _ => none
  subnetLocked := fun _ => none
  balances := fun _ => 0
  balOk := fun _ => true
  blockEmission := 0
  dflt := ⟨0, 0, 0, 0, 0, 0, 0, 0, 0, 0, 0, 0⟩

/-- C5 witness: on the empty ledger, creating subnetwork 3 (tempo 5,
modality 1) and removing it restores the counter and leaves the existence
flag absent. -/
theorem create_then_remove_restores_witness :
    (remove_network (init_new_network exNet 3 5 1) 3).totalNetworks = exNet.totalNetworks ∧
      (remove_network (init_new_network exNet 3 5 1) 3).networksAdded 3 = none := by
  have h := create_then_remove_restores exNet 3 5 1 (by decide) (by decide) (by decide)
    (by decide) (by decide)
  exact ⟨h.1, h.2.1⟩

/-- State for the C6 witness: subnetwork 1 is live, owned by account 7, with
100 locked. -/
def exC6 : NetState :=
  { exNet with
    networksAdded := fupd exNet.networksAdded 1 (some true)
    subnetOwner := fupd exNet.subnetOwner 1 (some 7)
    subnetLocked := fupd exNet.subnetLocked 1 (some 100) }

/-- C6 witness: removing subnetwork 1 of `exC6` credits owner 7 with the 100
locked tokens and zeroes the lock. -/
theorem remove_network_refunds_owner_witness :
    (remove_network exC6 1).balances ((exC6.subnetOwner 1).getD 0) =
        exC6.balances ((exC6.subnetOwner 1).getD 0) + (exC6.subnetLocked 1).getD 0 ∧
      (remove_network exC6 1).subnetLocked 1 = some 0 :=
  remove_network_refunds_owner exC6 1 (by decide) (by decide)

/-- State for the C7 witness: as `exC6` but the balance conversion always
fails. -/
def exC7 : NetState := { exC6 with balOk := fun _ => false }

/-- C7 witness: with an unrepresentable locked balance the removal of
subnetwork 1 leaves the state untouched. -/
theorem remove_network_noop_on_unrepresentable_witness :
    remove_network exC7 1 = exC7 :=
  remove_network_noop_on_unrepresentable exC7 1 (by decide)

theorem has_duplicate_netuids_go_false :
    ∀ (l parsed : List Nat), has_duplicate_netuids_go parsed l = false →
      l.Nodup ∧ ∀ y ∈ parsed, y ∉ l := by
  intro l
  induction l with
  | nil => intro parsed _; exact ⟨List.nodup_nil, by simp⟩
  | cons x rest ih =>
    intro parsed h
    unfold has_duplicate_netuids_go at h
    by_cases hc : parsed.contains x
    · rw [if_pos hc] at h
      exact absurd h (by simp)
    · rw [if_neg hc] at h
      obtain ⟨hnd, hnotin⟩ := ih (parsed ++ [x]) h
      have hxrest : x ∉ rest := hnotin x (by simp)
      refine ⟨List.nodup_cons.mpr ⟨hxrest, hnd⟩, ?_⟩
      intro y hy hmem
      rcases List.mem_cons.mp hmem with rfl | hm
      · exact hc (List.elem_iff.mpr hy)
      · exact hnotin y (by simp [hy]) hm

theorem nodup_of_no_duplicate_netuids {netuids : List Nat}
    (h : has_duplicate_netuids netuids = false) : netuids.Nodup :=
  (has_duplicate_netuids_go_false netuids [] h).1

theorem set_emission_values_lookup_other :
    ∀ (netuids : List Nat) (emission : List Nat) (st : NetState) (k : Nat), k ∉ netuids →
      (set_emission_values st netuids emission).emissionValues k = st.emissionValues k := by
  intro netuids
  induction netuids with
  | nil => intro em st k _; rfl
  | cons x nu ih =>
    intro em st k hk
    cases em with
    | nil => rfl
    | cons e em' =>
      have hkx : k ≠ x := fun h => hk (h ▸ List.mem_cons_self x nu)
      have hknu : k ∉ nu := fun h => hk (List.mem_cons_of_mem x h)
      have hstep : set_emission_values st (x :: nu) (e :: em') =
          set_emission_values (set_emission_for_network st x e) nu em' := rfl
      rw [hstep, ih em' _ k hknu]
      simp [set_emission_for_network, fupd, hkx]

theorem set_emission_values_lookup :
    ∀ (netuids : List Nat) (emission : List Nat) (st : NetState), netuids.Nodup →
      ∀ i (hi : i < netuids.length) (hj : i < emission.length),
        (set_emission_values st netuids emission).emissionValues (netuids.get ⟨i, hi⟩) =
          some (emission.get ⟨i, hj⟩) := by
  intro netuids
  induction netuids with
  | nil => intro em st _ i hi; exact absurd hi (by simp)
  | cons x nu ih =>
    intro em st hnd i hi hj
    cases em with
    | nil => exact absurd hj (by simp)
    | cons e em' =>
      have hstep : set_emission_values st (x :: nu) (e :: em') =
          set_emission_values (set_emission_for_network st x e) nu em' := rfl
      cases i with
      | zero =>
        rw [hstep]
        show (set_emission_values (set_emission_for_network st x e) nu em').emissionValues x =
          some e
        rw [set_emission_values_lookup_other nu em' _ x (List.nodup_cons.mp hnd).1]
        simp [set_emission_for_network, fupd]
      | succ j =>
        rw [hstep]
        show (set_emission_values (set_emission_for_network st x e) nu
            em').emissionValues (nu.get ⟨j, by simpa using hi⟩) =
          some (em'.get ⟨j, by simpa using hj⟩)
        exact ih em' _ (List.nodup_cons.mp hnd).2 j (by simpa using hi) (by simpa using hj)

/-- C4: for a root caller, `do_set_emission_values` succeeds exactly when the
two lists have equal length matching `TotalNetworks`, the netuids are
duplicate-free and all live, and the overflow-checked emission sum equals the
global block emission; every failure is one of the `ensure!` early returns,
which revert before any write.  On success every `(netuid, emission)` pair is
written to `EmissionValues`. -/
theorem set_emission_values_validation (st : NetState) (netuids emission : List Nat) :
    ((∃ st2, do_set_emission_values true st netuids emission = .ok st2) ↔
        (netuids.length = emission.length ∧ netuids.length = st.totalNetworks ∧
          has_duplicate_netuids netuids = false ∧
          contains_invalid_netuids st netuids = false ∧
          checked_sum emission = some st.blockEmission)) ∧
      ∀ st2, do_set_emission_values true st netuids emission = .ok st2 →
        ∀ i (hi : i < netuids.length) (hj : i < emission.length),
          st2.emissionValues (netuids.get ⟨i, hi⟩) = some (emission.get ⟨i, hj⟩) := by
  constructor
  · rcases hcs : checked_sum emission with _ | s <;>
      · simp only [do_set_emission_values, hcs]
        split_ifs <;> simp_all
  · intro st2 h i hi hj
    revert h
    rcases hcs : checked_sum emission with _ | s <;>
      simp only [do_set_emission_values, hcs] <;>
      rw [if_neg (by simp : ¬(true = false))] <;>
      split_ifs with h1 h2 h3 h4 h5 <;> intro h <;>
      first
        | exact Except.noConfusion h
        | exact h.elim
        | skip
    have hnd : netuids.Nodup := nodup_of_no_duplicate_netuids (by simpa using h3)
    have hst2 : st2 = set_emission_values st netuids emission := by
      cases h
      rfl
    rw [hst2]
    exact set_emission_values_lookup netuids emission st hnd i hi hj

/-- State for the C4 witness: one live subnetwork 0 and a block emission
budget of 5. -/
def exC4 : NetState :=
  { exNet with
    networksAdded := fupd exNet.networksAdded 0 (some true)
    totalNetworks := 1
    blockEmission := 5 }

/-- C4 witness: the valid batch `([0], [5])` succeeds and writes emission 5
for subnetwork 0. -/
theorem set_emission_values_validation_witness :
    (set_emission_values exC4 [0] [5]).emissionValues 0 = some 5 := by
  have h := (set_emission_values_validation exC4 [0] [5]).2
    (set_emission_values exC4 [0] [5]) rfl 0 (by decide) (by decide)
  simpa using h

/-! ## DelegateAggregator (`delegate_info.rs`)

`Stake` is a double map `(hotkey, coldkey) → u64`; its prefix iteration under a
delegate hotkey is modelled by `stakeIter`, a per-delegate list of
`(nominator, stake)` pairs in storage order.  The helpers that live outside
`src/` (`get_registered_networks_for_hotkey`, `get_uid_for_net_and_hotkey`,
`get_validator_permit_for_uid`, `get_emission_for_uid`, `get_tempo`,
`get_owning_coldkey_for_hotkey`, `get_total_stake_for_hotkey`) are modelled as
read-only oracle fields, per the spec's EmissionOracle/LedgerStore interfaces.
The `U64F64` fixed-point arithmetic of `substrate_fixed` is modelled over the
rationals, clamped at the type's maximum; the literal `from_num(0.82)` is
taken as the exact rational 82/100 (the binary approximation differs by less
than `2^-53`, and no claim depends on the projected-return fields). -/

/-- Largest `U64F64` value, `2^64 - 2^-64`. -/
def u64f64Max : Rat := 2 ^ 64 - 1 / 2 ^ 64

/-- Saturating `U64F64` addition. -/
def satAddQ (a b : Rat) : Rat := min (a + b) u64f64Max

/-- Saturating `U64F64` multiplication. -/
def satMulQ (a b : Rat) : Rat := min (a * b) u64f64Max

/-- Saturating `U64F64` division (the sources guard every divisor against 0;
the zero case is given the saturated maximum). -/
def satDivQ (a b : Rat) : Rat := if b = 0 then u64f64Max else min (a / b) u64f64Max

/-- Ledger/oracle state visible to the delegate read-model. -/
structure DelegState where
  stakeIter : Nat → List (Nat × Nat)
  delegates : Nat → Option Nat
  owner : Nat → Nat
  registrations : Nat → List Nat
  uidFor : Nat → Nat → Option Nat
  vpermit : Nat → Nat → Bool
  emissionFor : Nat → Nat → Nat
  tempoOf : Nat → Nat
  totalStake : Nat → Nat

/-- The `DelegateInfo` snapshot struct of `delegate_info.rs`. -/
structure DelegateInfo where
  delegate_ss58 : Nat
  take : Nat
  nominators : List (Nat × Nat)
  owner_ss58 : Nat
  registrations : List Nat
  validator_permits : List Nat
  return_per_1000 : Nat
  total_daily_return : Nat

/-- Shallow embedding of `Pallet::get_delegate_by_existing_account`: collect
the nonzero-stake nominators, then walk the registrations once accumulating
validator permits and the saturating daily-emission total, and finally derive
the per-1000 return. -/
def get_delegate_by_existing_account (st : DelegState) (delegate : Nat) : DelegateInfo :=
  let nominators := (st.stakeIter delegate).filter (fun p => !(p.2 == 0))
  let registrations := st.registrations delegate
  let pe : List Nat × Rat := registrations.foldl
    (fun acc netuid =>
      match st.uidFor netuid delegate with
      | some uid =>
        let acc1 : List Nat × Rat :=
          if st.vpermit netuid uid then (acc.1 ++ [netuid], acc.2) else acc
        let tempo : Rat := (st.tempoOf netuid : Nat)
        if 0 < tempo then
          (acc1.1,
            satAddQ acc1.2
              (satMulQ ((st.emissionFor netuid uid : Nat) : Rat) (satDivQ 7200 tempo)))
        else acc1
      | none => acc)
    ([], 0)
  let owner := st.owner delegate
  let take := (st.delegates delegate).getD 0
  let total_stake : Rat := ((st.totalStake delegate : Nat) : Rat)
  let return_per_1000 : Rat :=
    if 0 < total_stake then
      satDivQ (satMulQ pe.2 ((82 : Rat) / 100)) (satDivQ total_stake 1000)
    else 0
  { delegate_ss58 := delegate
    take := take
    nominators := nominators
    owner_ss58 := owner
    registrations := registrations
    validator_permits := pe.1
    return_per_1000 := return_per_1000.floor.toNat
    total_daily_return := pe.2.floor.toNat }

/-- Wrapping u64 iterator sum (`.sum::<u64>()` in a release build). -/
def wsum (l : List Nat) : Nat := l.foldl (fun acc x => (acc + x) % pow64) 0

/-- Shallow embedding of `Pallet::get_total_delegated_stake`: 0 for a
non-delegate, else the sum of the snapshot's nominator stakes excluding
entries whose nominator is the owning coldkey. -/
def get_total_delegated_stake (st : DelegState) (delegate : Nat) : Nat :=
  if (st.delegates delegate).isNone then 0
  else
    let delegate_info := get_delegate_by_existing_account st delegate
    let owner := st.owner delegate
    wsum ((delegate_info.nominators.filter (fun p => !(p.1 == owner))).map Prod.snd)

theorem wsum_eq (l : List Nat) : wsum l = l.sum % pow64 := by
  have key : ∀ (m : List Nat) (a : Nat),
      m.foldl (fun acc x => (acc + x) % pow64) (a % pow64) = (a + m.sum) % pow64 := by
    intro m
    induction m with
    | nil => intro a; simp
    | cons x rest ih =>
      intro a
      rw [List.foldl_cons, Nat.mod_add_mod, ih (a + x), List.sum_cons, Nat.add_assoc]
  have h := key l 0
  rw [Nat.zero_mod] at h
  rw [wsum, h, Nat.zero_add]

/-- C8: the nominators list of the snapshot built by
`get_delegate_by_existing_account` never contains a zero-stake entry, even
when the underlying stake ledger holds one. -/
theorem nominators_nonzero (st : DelegState) (d : Nat) (p : Nat × Nat)
    (hp : p ∈ (get_delegate_by_existing_account st d).nominators) : p.2 ≠ 0 := by
  unfold get_delegate_by_existing_account at hp
  simp only [List.mem_filter, Bool.not_eq_true', beq_eq_false_iff_ne] at hp
  exact hp.2

/-- State for the C8 and C9 witnesses: delegate hotkey 4 is a registered
delegate owned by coldkey 1; the stake ledger under hotkey 4 holds the owner's
stake of 100, a nominator stake of 50 from coldkey 2 and a transient
zero-stake entry from coldkey 3. -/
def exD : DelegState where
  stakeIter := fun h => if h = 4 then [(1, 100), (2, 50), (3, 0)] else []
  delegates := fun h => if h = 4 then some 11 else none
  owner := fun h => if h = 4 then 1 else 0
  registrations := fun _ => []
  uidFor := fun _ _ => none
  vpermit := fun _ _ => false
  emissionFor := fun _ _ => 0
  tempoOf := fun _ => 0
  totalStake := fun _ => 150

/-- C8 witness: the zero-stake ledger entry `(3, 0)` of `exD` is filtered
out, and the surviving entry `(2, 50)` indeed has nonzero stake. -/
theorem nominators_nonzero_witness :
    (2, 50) ∈ (get_delegate_by_existing_account exD 4).nominators ∧ (2, 50).2 ≠ 0 := by
  have hmem : (2, 50) ∈ (get_delegate_by_existing_account exD 4).nominators := by decide
  exact ⟨hmem, nominators_nonzero exD 4 (2, 50) hmem⟩

/-- C9: `get_total_delegated_stake` returns 0 whenever the account is not a
registered delegate, and otherwise returns the (u64) sum of the snapshot's
nominator stakes excluding every entry whose nominator equals the delegate's
owning coldkey. -/
theorem total_delegated_stake_excludes_owner (st : DelegState) (d : Nat) :
    (st.delegates d = none → get_total_delegated_stake st d = 0) ∧
      ∀ t, st.delegates d = some t →
        get_total_delegated_stake st d =
          (((get_delegate_by_existing_account st d).nominators.filter
              (fun p => !(p.1 == st.owner d))).map Prod.snd).sum % pow64 := by
  constructor
  · intro h
    unfold get_total_delegated_stake
    rw [if_pos (by rw [h]; rfl)]
  · intro t ht
    unfold get_total_delegated_stake
    rw [if_neg (by rw [ht]; simp)]
    exact wsum_eq _

/-- C9 witness: the spec's worked example on `exD` — owner 1 stakes 100,
nominator 2 stakes 50, so the total delegated stake of delegate 4 is 50. -/
theorem total_delegated_stake_excludes_owner_witness :
    get_total_delegated_stake exD 4 = 50 := by
  have h := (total_delegated_stake_excludes_owner exD 4).2 11 rfl
  rw [h]
  decide
